import Mathlib

/-!
Verification development for the `fixed_vector<T, CAPACITY>` container
(`fixed_vector.hpp`): a shallow embedding of the container state and its
operations, with theorems about the behaviour described in the design
document.

Modelling conventions:
* `size_t` values are `Nat` with explicit wraparound modulo `2 ^ 64`
  wherever the C++ arithmetic can wrap (`--` on `0`, the `size - 1 - i`
  index computation inside `reverse`).
* The backing `std::array<T, CAPACITY>` is modelled as a total function
  `Nat → T`; indices at or above `capacity` stand for the out-of-bounds
  memory that C++ would touch on a buffer overrun, so overruns are
  observable in the model instead of being undefined behaviour.
* Operations that can throw are modelled in checked mode (no
  `FIXED_VECTOR_NOEXCEPT`) as returning the post-state of the object
  together with an `Option VecError` / `Except VecError` result; a raised
  error leaves the object exactly as it was, mirroring the fact that each
  `throw` in the source happens before any mutation.  The
  `FIXED_VECTOR_NOEXCEPT` variants of `pop_back` / `pop_front` are
  modelled separately with the `_ne` suffix, with exactly the guards that
  survive preprocessing in that configuration.
-/

namespace FixedVec

/-- Modulus of `size_t` arithmetic on a 64-bit platform. -/
def SIZE_T_MOD : Nat := 2 ^ 64

/-- Wrapping `size_t` subtraction `a - b` (operands below `SIZE_T_MOD`):
`0 - 1` yields `SIZE_T_MOD - 1`, as in C++. -/
def stSub (a b : Nat) : Nat := if b ≤ a then a - b else a + SIZE_T_MOD - b

/-- State of a `fixed_vector<T, CAPACITY>`: the `_capacity` field (equal to
the template argument `CAPACITY`), the `_current_size` field, and the
backing buffer `_buf`, total over `Nat` so that out-of-bounds accesses are
representable. -/
structure fixed_vector (T : Type) where
  capacity : Nat
  current_size : Nat
  buf : Nat → T

variable {T : Type}

/-- A single store `buf[i] = x`. -/
def setBuf (buf : Nat → T) (i : Nat) (x : T) : Nat → T :=
  fun j => if j = i then x else buf j

/-- The body of one `reverse` iteration:
`temp = buf[i]; buf[i] = buf[k]; buf[k] = temp`. -/
def swapBuf (buf : Nat → T) (i k : Nat) : Nat → T :=
  setBuf (setBuf buf i (buf k)) k (buf i)

/-- The loop of `unsafe_right_shift_by_one` after the increment:
`for (size_t i = _current_size; i > 0; --i) _buf[i] = _buf[i-1];`,
run here with `m` playing the role of the (already incremented)
`_current_size`; iterations execute from `i = m` down to `i = 1`. -/
def right_shift_go : (Nat → T) → Nat → (Nat → T)
  | buf, 0 => buf
  | buf, m + 1 => right_shift_go (setBuf buf (m + 1) (buf m)) m

/-- `unsafe_right_shift_by_one`: `++_current_size;` then the descending
copy loop over the new size. -/
def right_shift_by_one (v : fixed_vector T) : fixed_vector T :=
  { v with
    current_size := (v.current_size + 1) % SIZE_T_MOD,
    buf := right_shift_go v.buf ((v.current_size + 1) % SIZE_T_MOD) }

/-- The loop of `unsafe_left_shift_by_one`:
`for (size_t i = 1; i < _current_size; ++i) _buf[i-1] = _buf[i];`,
re-indexed over the write position `p = i - 1`; `fuel` counts the
remaining iterations, so `left_shift_go buf 0 (n - 1)` runs the writes
`buf[0] = buf[1], ..., buf[n-2] = buf[n-1]` in ascending order. -/
def left_shift_go : (Nat → T) → Nat → Nat → (Nat → T)
  | buf, _, 0 => buf
  | buf, p, fuel + 1 => left_shift_go (setBuf buf p (buf (p + 1))) (p + 1) fuel

/-- `unsafe_left_shift_by_one`: the ascending copy loop, then
`--_current_size;` which wraps below zero (`stSub`). -/
def left_shift_by_one (v : fixed_vector T) : fixed_vector T :=
  { v with
    buf := left_shift_go v.buf 0 (v.current_size - 1),
    current_size := stSub v.current_size 1 }

/-- The distinguishable error conditions of checked mode (the four throw
sites of the source: the two `length_error` messages, `out_of_range`, and
the defensive `runtime_error`). -/
inductive VecError where
  | capacityExceeded
  | emptyContainer
  | indexOutOfRange
  | invariantViolation
deriving DecidableEq

/-- Checked-mode `push_back`: throw `length_error` when full (object
unchanged), otherwise `_buf[_current_size] = val; ++_current_size;`. -/
def push_back (v : fixed_vector T) (val : T) : fixed_vector T × Option VecError :=
  if v.current_size = v.capacity then (v, some VecError.capacityExceeded)
  else ({ v with
          buf := setBuf v.buf v.current_size val,
          current_size := (v.current_size + 1) % SIZE_T_MOD }, none)

/-- Checked-mode `push_front`: throw `length_error` when full (object
unchanged), otherwise `unsafe_right_shift_by_one(); _buf[0] = val;`. -/
def push_front (v : fixed_vector T) (val : T) : fixed_vector T × Option VecError :=
  if v.current_size = v.capacity then (v, some VecError.capacityExceeded)
  else ({ right_shift_by_one v with
          buf := setBuf (right_shift_by_one v).buf 0 val }, none)

/-- Checked-mode `pop_back`: throw `length_error` when empty (object
unchanged), otherwise `--_current_size; return _buf[_current_size];`. -/
def pop_back (v : fixed_vector T) : Except VecError T × fixed_vector T :=
  if v.current_size = 0 then (Except.error VecError.emptyContainer, v)
  else (Except.ok (v.buf (stSub v.current_size 1)),
        { v with current_size := stSub v.current_size 1 })

/-- Checked-mode `pop_front`: throw `length_error` when empty (object
unchanged), otherwise capture `_buf[0]`, then `unsafe_left_shift_by_one()`. -/
def pop_front (v : fixed_vector T) : Except VecError T × fixed_vector T :=
  if v.current_size = 0 then (Except.error VecError.emptyContainer, v)
  else (Except.ok (v.buf 0), left_shift_by_one v)

/-- `FIXED_VECTOR_NOEXCEPT` `pop_back`: the empty case returns `_buf[0]`
without mutating anything. -/
def pop_back_ne (v : fixed_vector T) : T × fixed_vector T :=
  if v.current_size = 0 then (v.buf 0, v)
  else (v.buf (stSub v.current_size 1),
        { v with current_size := stSub v.current_size 1 })

/-- `FIXED_VECTOR_NOEXCEPT` `pop_front`: the `size == 0` guard of the
source sits inside the `#ifndef FIXED_VECTOR_NOEXCEPT` block, so in this
configuration there is no guard at all: capture `_buf[0]`, then
`unsafe_left_shift_by_one()` unconditionally. -/
def pop_front_ne (v : fixed_vector T) : T × fixed_vector T :=
  (v.buf 0, left_shift_by_one v)

/-- The loop of `reverse`:
`for (size_t i = 0; i <= _current_size / 2; ++i)` swapping `_buf[i]` with
`_buf[_current_size - 1 - i]` (the index computed with wrapping `size_t`
subtraction); `fuel` counts the remaining iterations. -/
def reverse_go (n : Nat) : (Nat → T) → Nat → Nat → (Nat → T)
  | buf, _, 0 => buf
  | buf, i, fuel + 1 => reverse_go n (swapBuf buf i (stSub (stSub n 1) i)) (i + 1) fuel

/-- `reverse`: the loop condition `i <= _current_size / 2` makes the loop
run `_current_size / 2 + 1` times, starting at `i = 0`. -/
def reverse (v : fixed_vector T) : fixed_vector T :=
  { v with
    buf := reverse_go v.current_size v.buf 0 (v.current_size / 2 + 1) }

/-- Checked-mode `operator[]`: `out_of_range` when
`_current_size == 0 || pos > _current_size - 1`, then the defensive
`runtime_error` when `_current_size > _capacity`, else `_buf[pos]`. -/
def index_get (v : fixed_vector T) (pos : Nat) : Except VecError T :=
  if v.current_size = 0 ∨ v.current_size - 1 < pos then
    Except.error VecError.indexOutOfRange
  else if v.capacity < v.current_size then
    Except.error VecError.invariantViolation
  else Except.ok (v.buf pos)

/-- `operator==`: sizes must match, then `std::equal` over the logical
range `[cbegin, cend)`, i.e. the first `_current_size` slots of each. -/
def fv_eq [DecidableEq T] (a b : fixed_vector T) : Bool :=
  if a.current_size = b.current_size then
    (List.range a.current_size).all fun i => decide (a.buf i = b.buf i)
  else false

/-- Indices written by the descending loop of `unsafe_right_shift_by_one`
when the (incremented) size is `m`, in execution order: `m, m-1, ..., 1`. -/
def right_shift_writes : Nat → List Nat
  | 0 => []
  | m + 1 => (m + 1) :: right_shift_writes m

/-- Indices written by a successful `push_front`: the shift-loop writes
followed by the final store to slot `0`. -/
def push_front_writes (v : fixed_vector T) : List Nat :=
  if v.current_size = v.capacity then []
  else right_shift_writes ((v.current_size + 1) % SIZE_T_MOD) ++ [0]

/-- Indices touched (read or written) by the swaps of `reverse` on a
vector of size `n`: for each loop iteration `i`, slots `i` and
`stSub (stSub n 1) i`. -/
def reverse_touched (n : Nat) : List Nat :=
  (List.range (n / 2 + 1)).flatMap fun i => [i, stSub (stSub n 1) i]

/-- One push in checked mode, tagged by direction: `true` is `push_back`,
`false` is `push_front`. -/
def do_push (v : fixed_vector T) (op : Bool × T) : fixed_vector T × Option VecError :=
  if op.1 then push_back v op.2 else push_front v op.2

/-- Run a sequence of pushes, reporting whether every one of them
succeeded (stopping at the first failure). -/
def run_pushes : fixed_vector T → List (Bool × T) → fixed_vector T × Bool
  | v, [] => (v, true)
  | v, op :: rest =>
    if (do_push v op).2 = none then run_pushes (do_push v op).1 rest
    else ((do_push v op).1, false)

lemma setBuf_self (buf : Nat → T) (i : Nat) (x : T) : setBuf buf i x i = x := by
  simp [setBuf]

lemma setBuf_ne (buf : Nat → T) (i : Nat) (x : T) (j : Nat) (h : j ≠ i) :
    setBuf buf i x j = buf j := by
  simp [setBuf, h]

lemma right_shift_go_eval (m : Nat) (buf : Nat → T) (j : Nat) :
    right_shift_go buf m j = if 1 ≤ j ∧ j ≤ m then buf (j - 1) else buf j := by
  induction m generalizing buf with
  | zero =>
    simp only [right_shift_go]
    rw [if_neg (by omega)]
  | succ m ih =>
    simp only [right_shift_go]
    rw [ih]
    by_cases h1 : 1 ≤ j ∧ j ≤ m
    · rw [if_pos h1, if_pos (by omega : 1 ≤ j ∧ j ≤ m + 1)]
      exact setBuf_ne _ _ _ _ (by omega)
    · rw [if_neg h1]
      by_cases h2 : j = m + 1
      · subst h2
        rw [if_pos (by omega), setBuf_self]
        simp
      · rw [if_neg (by omega), setBuf_ne _ _ _ _ h2]

lemma left_shift_go_eval (fuel p : Nat) (buf : Nat → T) (j : Nat) :
    left_shift_go buf p fuel j = if p ≤ j ∧ j < p + fuel then buf (j + 1) else buf j := by
  induction fuel generalizing p buf with
  | zero =>
    simp only [left_shift_go]
    rw [if_neg (by omega)]
  | succ fuel ih =>
    simp only [left_shift_go]
    rw [ih]
    by_cases h1 : p + 1 ≤ j ∧ j < p + 1 + fuel
    · rw [if_pos h1, if_pos (by omega : p ≤ j ∧ j < p + (fuel + 1))]
      exact setBuf_ne _ _ _ _ (by omega)
    · rw [if_neg h1]
      by_cases h2 : j = p
      · subst h2
        rw [if_pos (by omega), setBuf_self]
      · rw [if_neg (by omega), setBuf_ne _ _ _ _ h2]

lemma do_push_ok (v : fixed_vector T) (op : Bool × T)
    (h : v.current_size < v.capacity) (hc : v.capacity < SIZE_T_MOD) :
    (do_push v op).2 = none ∧
    (do_push v op).1.current_size = v.current_size + 1 ∧
    (do_push v op).1.capacity = v.capacity := by
  have hne : ¬ (v.current_size = v.capacity) := by omega
  have hmod : (v.current_size + 1) % SIZE_T_MOD = v.current_size + 1 :=
    Nat.mod_eq_of_lt (by omega)
  by_cases hb : op.1
  · simp [do_push, hb, push_back, hne, hmod]
  · simp [do_push, hb, push_front, hne, right_shift_by_one, hmod]

lemma do_push_full (v : fixed_vector T) (op : Bool × T)
    (h : v.current_size = v.capacity) :
    do_push v op = (v, some VecError.capacityExceeded) := by
  by_cases hb : op.1 <;> simp [do_push, hb, push_back, push_front, h]

lemma run_pushes_ok (ops : List (Bool × T)) (v : fixed_vector T)
    (h : v.current_size + ops.length ≤ v.capacity) (hc : v.capacity < SIZE_T_MOD) :
    (run_pushes v ops).2 = true ∧
    (run_pushes v ops).1.current_size = v.current_size + ops.length ∧
    (run_pushes v ops).1.capacity = v.capacity := by
  induction ops generalizing v with
  | nil => simp [run_pushes]
  | cons op rest ih =>
    have hlt : v.current_size < v.capacity := by
      simp only [List.length_cons] at h; omega
    obtain ⟨h1, h2, h3⟩ := do_push_ok v op hlt hc
    have hrec := ih (do_push v op).1
      (by rw [h2, h3]; simp only [List.length_cons] at h; omega)
      (by rw [h3]; exact hc)
    simp only [run_pushes, if_pos h1]
    refine ⟨hrec.1, ?_, by rw [hrec.2.2, h3]⟩
    rw [hrec.2.1, h2]
    simp only [List.length_cons]
    omega

lemma fv_eq_true_iff [DecidableEq T] (a b : fixed_vector T) :
    fv_eq a b = true ↔
      (a.current_size = b.current_size ∧
        ∀ i, i < a.current_size → a.buf i = b.buf i) := by
  unfold fv_eq
  by_cases h : a.current_size = b.current_size
  · rw [if_pos h]
    simp [List.all_eq_true, List.mem_range, h]
  · rw [if_neg h]
    simp [h]

/-- C1: the claim states that after one `reverse()` every logical position
`i < n` holds the element previously at position `n - 1 - i`.  The loop
condition `i <= _current_size / 2` makes the code re-swap the middle pair
when the size is even: on the size-2 vector holding `1, 2` the reversed
vector still holds `1` at position `0`, not the old element at position
`2 - 1 - 0 = 1`, so the claim fails (the code contradicts its own
"reverse in-place" documentation). -/
theorem C1_reverse_even_size_not_reversed :
    ¬ ((reverse (⟨2, 2, fun j => if j = 0 then 1 else 2⟩ : fixed_vector Nat)).buf 0 =
       (⟨2, 2, fun j => if j = 0 then 1 else 2⟩ : fixed_vector Nat).buf (2 - 1 - 0)) ∧
    (reverse (⟨2, 2, fun j => if j = 0 then 1 else 2⟩ : fixed_vector Nat)).buf 0 = 1 ∧
    (reverse (⟨2, 2, fun j => if j = 0 then 1 else 2⟩ : fixed_vector Nat)).buf 1 = 2 ∧
    (reverse (⟨2, 2, fun j => if j = 0 then 1 else 2⟩ : fixed_vector Nat)).current_size = 2 := by
  refine ⟨by decide, by decide, by decide, by decide⟩

/-- C2: the claim states that on a vector with `size < capacity`,
`push_front` writes only storage indices below `capacity`, the shift
covering `i` from the old size down to `1`.  The shift loop starts at the
already incremented size, so with `capacity = 2` and old size `1` it also
writes slot `2 = capacity`: the write-index list of the operation contains
`2`, and the resulting state has the old `_buf[1]` value `20` copied into
the out-of-bounds slot `2` (a buffer overrun in C++). -/
theorem C2_push_front_writes_slot_at_capacity :
    (push_front (⟨2, 1, fun j => if j = 0 then 10 else if j = 1 then 20 else 0⟩ :
        fixed_vector Nat) 7).2 = none ∧
    2 ∈ push_front_writes (⟨2, 1, fun j => if j = 0 then 10 else if j = 1 then 20 else 0⟩ :
        fixed_vector Nat) ∧
    (push_front (⟨2, 1, fun j => if j = 0 then 10 else if j = 1 then 20 else 0⟩ :
        fixed_vector Nat) 7).1.buf 2 = 20 ∧
    (⟨2, 1, fun j => if j = 0 then 10 else if j = 1 then 20 else 0⟩ :
        fixed_vector Nat).buf 2 = 0 := by
  refine ⟨by decide, by decide, by decide, by decide⟩

/-- C3: the claim states that in the `FIXED_VECTOR_NOEXCEPT` build,
`pop_front` on an empty vector behaves like `pop_back`: return `_buf[0]`
and leave the size unchanged.  The empty guard of `pop_front` sits inside
the `#ifndef FIXED_VECTOR_NOEXCEPT` block, so in that build it is compiled
out: on the empty vector `pop_front` does return `_buf[0]`, but
`--_current_size` wraps the size from `0` to `2 ^ 64 - 1`, while
`pop_back` (which keeps its guard) leaves the size at `0`. -/
theorem C3_pop_front_noexcept_underflows_size :
    (pop_front_ne (⟨1, 0, fun _ => (0 : Nat)⟩ : fixed_vector Nat)).1 = 0 ∧
    (pop_front_ne (⟨1, 0, fun _ => (0 : Nat)⟩ : fixed_vector Nat)).2.current_size =
      SIZE_T_MOD - 1 ∧
    (pop_back_ne (⟨1, 0, fun _ => (0 : Nat)⟩ : fixed_vector Nat)).2.current_size = 0 := by
  refine ⟨by decide, by decide, by decide⟩

/-- C4: the claim states that `reverse()` on an empty vector performs no
swaps and touches only indices below `capacity`.  The loop condition
`i <= 0 / 2` lets the body run once with `i = 0`, and the partner index
`_current_size - 1 - i` wraps to `2 ^ 64 - 1`: the touched-index list of
the loop contains `2 ^ 64 - 1`, and slot `0` is overwritten with the
out-of-bounds value (here `7` replacing `5`), so the container does not
stay unchanged. -/
theorem C4_reverse_empty_touches_out_of_bounds :
    (SIZE_T_MOD - 1) ∈ reverse_touched 0 ∧
    (reverse (⟨1, 0, fun j => if j = 0 then 5 else 7⟩ : fixed_vector Nat)).buf 0 = 7 ∧
    (⟨1, 0, fun j => if j = 0 then 5 else 7⟩ : fixed_vector Nat).buf 0 = 5 := by
  refine ⟨by decide, by decide, by decide⟩

/-- C5: the claim states that `0 ≤ size ≤ capacity` is preserved by every
public operation in either build mode.  In the `FIXED_VECTOR_NOEXCEPT`
build, `pop_front` on an empty vector (which satisfies the invariant)
wraps the size to `2 ^ 64 - 1`, far above the capacity `1`, so the
invariant is not preserved. -/
theorem C5_invariant_broken_by_noexcept_pop_front :
    (⟨1, 0, fun _ => (0 : Nat)⟩ : fixed_vector Nat).current_size ≤
      (⟨1, 0, fun _ => (0 : Nat)⟩ : fixed_vector Nat).capacity ∧
    ¬ ((pop_front_ne (⟨1, 0, fun _ => (0 : Nat)⟩ : fixed_vector Nat)).2.current_size ≤
       (pop_front_ne (⟨1, 0, fun _ => (0 : Nat)⟩ : fixed_vector Nat)).2.capacity) := by
  refine ⟨by decide, by decide⟩

/-- C6: in checked mode, starting from an empty vector of capacity `C`,
any sequence of `C` pushes (each `push_back` or `push_front`) succeeds and
ends with size `C`, and one further push of either kind fails with the
capacity-exceeded error and returns the container unchanged, discarding
the value. -/
theorem C6_capacity_pushes_then_next_push_fails (v0 : fixed_vector T)
    (ops : List (Bool × T)) (b : Bool) (y : T)
    (h0 : v0.current_size = 0) (hlen : ops.length = v0.capacity)
    (hcap : v0.capacity < SIZE_T_MOD) :
    (run_pushes v0 ops).2 = true ∧
    (run_pushes v0 ops).1.current_size = v0.capacity ∧
    do_push (run_pushes v0 ops).1 (b, y) =
      ((run_pushes v0 ops).1, some VecError.capacityExceeded) := by
  obtain ⟨h1, h2, h3⟩ := run_pushes_ok ops v0 (by omega) hcap
  refine ⟨h1, by omega, ?_⟩
  exact do_push_full _ _ (by omega)

/-- Witness for C6: capacity 2, pushes `push_back 3` then `push_front 4`
both succeed, and a further `push_back 7` fails with the
capacity-exceeded error, leaving the container unchanged. -/
theorem C6_capacity_pushes_then_next_push_fails_witness :
    (run_pushes (⟨2, 0, fun _ => 0⟩ : fixed_vector Nat) [(true, 3), (false, 4)]).2 = true ∧
    (run_pushes (⟨2, 0, fun _ => 0⟩ : fixed_vector Nat) [(true, 3), (false, 4)]).1.current_size = 2 ∧
    do_push (run_pushes (⟨2, 0, fun _ => 0⟩ : fixed_vector Nat) [(true, 3), (false, 4)]).1 (true, 7) =
      ((run_pushes (⟨2, 0, fun _ => 0⟩ : fixed_vector Nat) [(true, 3), (false, 4)]).1,
        some VecError.capacityExceeded) :=
  C6_capacity_pushes_then_next_push_fails (⟨2, 0, fun _ => 0⟩ : fixed_vector Nat)
    [(true, 3), (false, 4)] true 7 rfl (by decide) (by decide)

/-- C7: in checked mode, `pop_back` and `pop_front` on a vector of size 0
fail with the empty-container error and return the container exactly as
it was (size and every storage slot unchanged). -/
theorem C7_pop_on_empty_fails_unchanged (v : fixed_vector T)
    (h : v.current_size = 0) :
    pop_back v = (Except.error VecError.emptyContainer, v) ∧
    pop_front v = (Except.error VecError.emptyContainer, v) := by
  constructor <;> simp [pop_back, pop_front, h]

/-- Witness for C7: both pops on a concrete empty vector of capacity 1
fail with the empty-container error and return the vector unchanged. -/
theorem C7_pop_on_empty_fails_unchanged_witness :
    pop_back (⟨1, 0, fun _ => (0 : Nat)⟩ : fixed_vector Nat) =
      (Except.error VecError.emptyContainer, (⟨1, 0, fun _ => (0 : Nat)⟩ : fixed_vector Nat)) ∧
    pop_front (⟨1, 0, fun _ => (0 : Nat)⟩ : fixed_vector Nat) =
      (Except.error VecError.emptyContainer, (⟨1, 0, fun _ => (0 : Nat)⟩ : fixed_vector Nat)) :=
  C7_pop_on_empty_fails_unchanged (⟨1, 0, fun _ => (0 : Nat)⟩ : fixed_vector Nat) rfl

/-- C8: on a vector with `size < capacity`, `push_front x` succeeds, a
following `pop_front` returns exactly `x`, the size returns to its
original value, and every logical slot `i < size` holds the same element
as before the pair of operations. -/
theorem C8_push_front_pop_front_roundtrip (v : fixed_vector T) (x : T)
    (h : v.current_size < v.capacity) (hc : v.capacity < SIZE_T_MOD) :
    (push_front v x).2 = none ∧
    (pop_front (push_front v x).1).1 = Except.ok x ∧
    (pop_front (push_front v x).1).2.current_size = v.current_size ∧
    ∀ i, i < v.current_size → (pop_front (push_front v x).1).2.buf i = v.buf i := by
  have hne : ¬ (v.current_size = v.capacity) := by omega
  have hmod : (v.current_size + 1) % SIZE_T_MOD = v.current_size + 1 :=
    Nat.mod_eq_of_lt (by omega)
  have hs1 : (push_front v x).1.current_size = v.current_size + 1 := by
    simp [push_front, hne, right_shift_by_one, hmod]
  have hs2 : (push_front v x).1.buf =
      setBuf (right_shift_go v.buf (v.current_size + 1)) 0 x := by
    simp [push_front, hne, right_shift_by_one, hmod]
  have hpop0 : ¬ ((push_front v x).1.current_size = 0) := by omega
  refine ⟨by simp [push_front, hne], ?_, ?_, ?_⟩
  · simp only [pop_front, if_neg hpop0]
    rw [hs2, setBuf_self]
  · simp only [pop_front, if_neg hpop0, left_shift_by_one]
    rw [hs1]
    simp [stSub]
  · intro i hi
    simp only [pop_front, if_neg hpop0, left_shift_by_one]
    rw [hs1]
    simp only [Nat.add_sub_cancel]
    rw [left_shift_go_eval, if_pos (by omega : 0 ≤ i ∧ i < 0 + v.current_size)]
    rw [hs2, setBuf_ne _ _ _ _ (by omega), right_shift_go_eval,
      if_pos (by omega : 1 ≤ i + 1 ∧ i + 1 ≤ v.current_size + 1)]
    simp

/-- Witness for C8: on the size-1 vector holding `5` in a capacity-2
buffer, `push_front 9` then `pop_front` returns `9`, restores the size to
1, and leaves slot 0 holding `5` again. -/
theorem C8_push_front_pop_front_roundtrip_witness :
    (push_front (⟨2, 1, fun j => if j = 0 then 5 else 0⟩ : fixed_vector Nat) 9).2 = none ∧
    (pop_front (push_front (⟨2, 1, fun j => if j = 0 then 5 else 0⟩ : fixed_vector Nat) 9).1).1 =
      Except.ok 9 ∧
    (pop_front (push_front (⟨2, 1, fun j => if j = 0 then 5 else 0⟩ : fixed_vector Nat) 9).1).2.current_size = 1 ∧
    ∀ i, i < 1 →
      (pop_front (push_front (⟨2, 1, fun j => if j = 0 then 5 else 0⟩ : fixed_vector Nat) 9).1).2.buf i =
        (⟨2, 1, fun j => if j = 0 then 5 else 0⟩ : fixed_vector Nat).buf i :=
  C8_push_front_pop_front_roundtrip (⟨2, 1, fun j => if j = 0 then 5 else 0⟩ : fixed_vector Nat)
    9 (by decide) (by decide)

/-- C9: `operator==` returns `true` exactly when the logical sizes match
and the logical elements agree pairwise in order (so slots at index
`≥ size` never influence the result), and it is reflexive and
symmetric. -/
theorem C9_equality_is_logical (T : Type) [DecidableEq T] (a b : fixed_vector T) :
    (fv_eq a b = true ↔
      (a.current_size = b.current_size ∧
        ∀ i, i < a.current_size → a.buf i = b.buf i)) ∧
    fv_eq a a = true ∧
    fv_eq a b = fv_eq b a := by
  refine ⟨fv_eq_true_iff a b, ?_, ?_⟩
  · rw [fv_eq_true_iff]
    exact ⟨rfl, fun i _ => rfl⟩
  · rw [Bool.eq_iff_iff, fv_eq_true_iff, fv_eq_true_iff]
    constructor
    · rintro ⟨h1, h2⟩
      exact ⟨h1.symm, fun i hi => (h2 i (by omega)).symm⟩
    · rintro ⟨h1, h2⟩
      exact ⟨h1.symm, fun i hi => (h2 i (by omega)).symm⟩

/-- C10: checked-mode `operator[]` fails with the out-of-range error
exactly when `size = 0` or `pos ≥ size`; it returns the element at
logical position `pos` exactly when `pos < size ≤ capacity`; and it fails
with the distinct invariant-violation error exactly when `pos < size` but
the defensive check finds `size > capacity`. -/
theorem C10_index_access_cases (v : fixed_vector T) (pos : Nat) :
    (index_get v pos = Except.error VecError.indexOutOfRange ↔
      (v.current_size = 0 ∨ v.current_size ≤ pos)) ∧
    (index_get v pos = Except.error VecError.invariantViolation ↔
      (pos < v.current_size ∧ v.capacity < v.current_size)) ∧
    (index_get v pos = Except.ok (v.buf pos) ↔
      (pos < v.current_size ∧ v.current_size ≤ v.capacity)) := by
  unfold index_get
  by_cases h1 : v.current_size = 0 ∨ v.current_size - 1 < pos
  · rw [if_pos h1]
    refine ⟨?_, ?_, ?_⟩ <;> simp <;> omega
  · rw [if_neg h1]
    by_cases h2 : v.capacity < v.current_size
    · rw [if_pos h2]
      refine ⟨?_, ?_, ?_⟩ <;> simp <;> omega
    · rw [if_neg h2]
      refine ⟨?_, ?_, ?_⟩ <;> simp <;> omega

end FixedVec
